import Mathlib

/-!
Verification of the semgrep SCA dependency-resolution core
(`cli/src/semgrep/resolve_dependency_source.py`, `cli/src/semgrep/subproject.py`,
`cli/src/semgrep/resolve_subprojects.py`) as a shallow embedding in Lean 4.

Modelling conventions:
* A filesystem path is modelled as the list of its components below the root
  (`Path := List String`); the root directory is `[]`.  `Path.parents` of the
  Python `pathlib` library then corresponds to the proper prefixes of the
  component list.
* The external collaborators (the per-ecosystem lockfile parsers imported from
  `semdep.parsers.*`, and the RPC engine reached through
  `semgrep.rpc_call.resolve_dependencies`) are parameters of the embedding,
  collected in the `Env` structure.  Everything else is translated from the
  source.
* Python's `sorted` (a stable sort) is modelled by Mathlib's stable
  `List.insertionSort`.
* A Python `set` that the source only ever tests membership in, adds to, and
  takes the length of, is modelled as a duplicate-free list built with
  insert-if-absent.
-/

namespace Semgrep

/-- A filesystem path: list of components below the root (`[]` is the root). -/
abbrev Path := List String

/-- Manifest kinds appearing in the source's PTT tables
(`semgrep_output_v1.ManifestKind` constructors used by the core). -/
inductive ManifestKind where
  | packageJson
  | csproj
  | pomXml
  | buildGradle
  | requirementsIn
  deriving DecidableEq

/-- Lockfile kinds: precisely the keys of `PARSERS_BY_LOCKFILE_KIND`. -/
inductive LockfileKind where
  | pipfileLock
  | pipRequirementsTxt
  | poetryLock
  | uvLock
  | npmPackageLockJson
  | yarnLock
  | pnpmLock
  | gemfileLock
  | composerLock
  | goMod
  | cargoLock
  | mavenDepTree
  | gradleLockfile
  | nugetPackagesLockJson
  | pubspecLock
  | swiftPackageResolved
  | mixLock
  | conanLock
  deriving DecidableEq

/-- `out.Manifest`: a manifest file (path plus kind). -/
structure Manifest where
  path : Path
  kind : ManifestKind
  deriving DecidableEq

/-- `out.Lockfile`: a lockfile (path plus kind). -/
structure Lockfile where
  path : Path
  kind : LockfileKind
  deriving DecidableEq

/-- `out.Ecosystem`: a package-manager universe (opaque enumeration). -/
inductive Ecosystem where
  | npm
  | pypi
  | gem
  | cargo
  | maven
  | nuget
  deriving DecidableEq

/-- `out.Transitivity` of a found dependency. -/
inductive Transitivity where
  | direct
  | transitive
  | unknownT
  deriving DecidableEq

/-- `out.DependencyChild`: a (package, version) lookup key into the graph. -/
structure DependencyChild where
  package : String
  version : String
  deriving DecidableEq

/-- `out.FoundDependency`: one resolved dependency fact. -/
structure FoundDependency where
  package : String
  version : String
  transitivity : Transitivity
  children : Option (List DependencyChild)
  lockfile_path : Option Path
  deriving DecidableEq

/-- `semgrep.subproject.ResolutionMethod` (via `out.ResolutionMethod`). -/
inductive ResolutionMethod where
  | lockfileParsing
  | dynamic
  deriving DecidableEq

/-- A parser-level error (`out.DependencyParserError`), opaque to the core. -/
structure DependencyParserError where
  message : String
  deriving DecidableEq

/-- The typed payload of an engine resolution error (`out.ResolutionError`),
opaque to the core. -/
structure ResolutionErrorType where
  message : String
  deriving DecidableEq

/-- `semgrep.error.DependencyResolutionError`: an engine error wrapped with the
originating dependency source file. -/
structure DependencyResolutionError where
  type_ : ResolutionErrorType
  dependency_source_file : Path
  deriving DecidableEq

/-- `Union[DependencyParserError, DependencyResolutionError]` as it appears in
`DependencyResolutionResult`. -/
inductive DepError where
  | parseErr (e : DependencyParserError)
  | resolveErr (e : DependencyResolutionError)
  deriving DecidableEq

/-- The non-multi lockfile-bearing dependency sources:
`Union[LockfileOnlyDependencySource, ManifestLockfileDependencySource]`, the
element type of `MultiLockfileDependencySource.sources` and the argument type of
`_handle_lockfile_source`. -/
inductive ChildSource where
  | lockfileOnly (lockfile : Lockfile)
  | manifestLockfile (manifest : Manifest) (lockfile : Lockfile)
  deriving DecidableEq

/-- `semgrep.subproject.DependencySource`: the four-variant tagged union. -/
inductive DependencySource where
  | manifestOnly (manifest : Manifest)
  | lockfileOnly (lockfile : Lockfile)
  | manifestLockfile (manifest : Manifest) (lockfile : Lockfile)
  | multiLockfile (sources : List ChildSource)
  deriving DecidableEq

/-- Inject a multi-lockfile child into the full union. -/
def ChildSource.toDepSource : ChildSource → DependencySource
  | .lockfileOnly lf => .lockfileOnly lf
  | .manifestLockfile m lf => .manifestLockfile m lf

/-- The lockfile of a non-multi lockfile-bearing source (`dep_source.lockfile`). -/
def ChildSource.lockfile : ChildSource → Lockfile
  | .lockfileOnly lf => lf
  | .manifestLockfile _ lf => lf

/-- The manifest kind used by the PTT tests: `dep_source.manifest.kind` for a
`ManifestLockfileDependencySource`, `None` for a `LockfileOnlyDependencySource`. -/
def ChildSource.manifestKind : ChildSource → Option ManifestKind
  | .lockfileOnly _ => none
  | .manifestLockfile m _ => some m.kind

/-- The manifest path passed to the in-process parser:
`Path(dep_source.manifest.path.value)` for a manifest-lockfile source, else
`None`. -/
def ChildSource.manifestPath : ChildSource → Option Path
  | .lockfileOnly _ => none
  | .manifestLockfile m _ => some m.path

/-- The argument type of `_resolve_dependencies_rpc`:
`Union[ManifestOnlyDependencySource, ManifestLockfileDependencySource,
LockfileOnlyDependencySource]`. -/
inductive SingleSource where
  | manifestOnly (manifest : Manifest)
  | lockfileOnly (lockfile : Lockfile)
  | manifestLockfile (manifest : Manifest) (lockfile : Lockfile)
  deriving DecidableEq

/-- Inject a lockfile-bearing source into the RPC argument union. -/
def ChildSource.toSingle : ChildSource → SingleSource
  | .lockfileOnly lf => .lockfileOnly lf
  | .manifestLockfile m lf => .manifestLockfile m lf

/-- `get_display_paths` of the two non-multi lockfile-bearing subclasses. -/
def ChildSource.get_display_paths : ChildSource → List Path
  | .lockfileOnly lf => [lf.path]
  | .manifestLockfile _ lf => [lf.path]

/-- `get_all_source_files` of the two non-multi lockfile-bearing subclasses. -/
def ChildSource.get_all_source_files : ChildSource → List Path
  | .lockfileOnly lf => [lf.path]
  | .manifestLockfile m lf => [m.path, lf.path]

/-- `get_display_paths` of each `DependencySource` subclass (the multi variant
aggregates its children's display paths in child order). -/
def DependencySource.get_display_paths : DependencySource → List Path
  | .manifestOnly m => [m.path]
  | .lockfileOnly lf => [lf.path]
  | .manifestLockfile _ lf => [lf.path]
  | .multiLockfile srcs => srcs.flatMap ChildSource.get_display_paths

/-- `get_all_source_files` of each `DependencySource` subclass. -/
def DependencySource.get_all_source_files : DependencySource → List Path
  | .manifestOnly m => [m.path]
  | .lockfileOnly lf => [lf.path]
  | .manifestLockfile m lf => [m.path, lf.path]
  | .multiLockfile srcs => srcs.flatMap ChildSource.get_all_source_files

/-- The response tagged union of one RPC result:
`out.ResolutionOk (deps, errors)` or the error variant carrying a list of typed
errors. -/
inductive ResolutionResult where
  | ok (deps : List FoundDependency) (errors : List ResolutionErrorType)
  | err (errors : List ResolutionErrorType)

/-- The observable outcome of one call to `semgrep.rpc_call.resolve_dependencies`
with a single-element batch: the call may raise, return `None`, or return a
non-empty list of `(request_echo, result)` pairs, of which the code uses only
the first result and the count. -/
inductive RpcOutcome where
  | raises
  | noResponse
  | responds (first : ResolutionResult) (rest : List ResolutionResult)

/-- The external collaborators of the core: the RPC engine and the per-kind
in-process lockfile parser implementations (the functions imported from
`semdep.parsers.*`; which kinds HAVE a parser is fixed by
`PARSERS_BY_LOCKFILE_KIND` below and is not part of the environment). -/
structure Env where
  rpc : SingleSource → RpcOutcome
  parserFun : LockfileKind → Path → Option Path →
    List FoundDependency × List DependencyParserError

/-- `PARSERS_BY_LOCKFILE_KIND`: maps each lockfile kind to its parser; `none`
for the kinds the dictionary maps to `None` (`UvLock`, `ConanLock`: recognized
but unsupported). -/
def PARSERS_BY_LOCKFILE_KIND (env : Env) :
    LockfileKind → Option (Path → Option Path → List FoundDependency × List DependencyParserError)
  | .pipfileLock => some (env.parserFun .pipfileLock)
  | .pipRequirementsTxt => some (env.parserFun .pipRequirementsTxt)
  | .poetryLock => some (env.parserFun .poetryLock)
  | .uvLock => none
  | .npmPackageLockJson => some (env.parserFun .npmPackageLockJson)
  | .yarnLock => some (env.parserFun .yarnLock)
  | .pnpmLock => some (env.parserFun .pnpmLock)
  | .gemfileLock => some (env.parserFun .gemfileLock)
  | .composerLock => some (env.parserFun .composerLock)
  | .goMod => some (env.parserFun .goMod)
  | .cargoLock => some (env.parserFun .cargoLock)
  | .mavenDepTree => some (env.parserFun .mavenDepTree)
  | .gradleLockfile => some (env.parserFun .gradleLockfile)
  | .nugetPackagesLockJson => some (env.parserFun .nugetPackagesLockJson)
  | .pubspecLock => some (env.parserFun .pubspecLock)
  | .swiftPackageResolved => some (env.parserFun .swiftPackageResolved)
  | .mixLock => some (env.parserFun .mixLock)
  | .conanLock => none

/-- `PTT_OCAML_PARSER_SUBPROJECT_KINDS`, lifted to the optional pair type the
membership test compares against. -/
def PTT_OCAML_PARSER_SUBPROJECT_KINDS : List (Option ManifestKind × Option LockfileKind) :=
  [(some .packageJson, some .npmPackageLockJson),
   (some .csproj, some .nugetPackagesLockJson)]

/-- `PTT_DYNAMIC_RESOLUTION_SUBPROJECT_KINDS`. -/
def PTT_DYNAMIC_RESOLUTION_SUBPROJECT_KINDS : List (Option ManifestKind × Option LockfileKind) :=
  [(some .pomXml, none),
   (some .buildGradle, none),
   (some .buildGradle, some .gradleLockfile),
   (some .csproj, none),
   (some .requirementsIn, some .pipRequirementsTxt),
   (none, some .pipRequirementsTxt)]

/-- `DependencyResolutionResult`: optional (method, dependencies), errors,
consumed dependency-target paths. -/
abbrev DependencyResolutionResult :=
  Option (ResolutionMethod × List FoundDependency) × List DepError × List Path

/-- The file path an RPC error is wrapped with:
`dependency_source.lockfile.path if isinstance(dependency_source,
LockfileOnlyDependencySource) else dependency_source.manifest.path`. -/
def rpcErrorPath : SingleSource → Path
  | .lockfileOnly lf => lf.path
  | .manifestOnly m => m.path
  | .manifestLockfile m _ => m.path

/-- The consumed targets returned by a successful RPC resolution:
`[manifest.path] if isinstance(..., ManifestOnlyDependencySource) else
[lockfile.path]`. -/
def rpcOkTargets : SingleSource → List Path
  | .manifestOnly m => [m.path]
  | .lockfileOnly lf => [lf.path]
  | .manifestLockfile _ lf => [lf.path]

/-- `_resolve_dependencies_rpc`: issue the engine call for one source and
interpret the response. -/
def resolve_dependencies_rpc (env : Env) (dependency_source : SingleSource) :
    Option (List FoundDependency) × List DependencyResolutionError × List Path :=
  match env.rpc dependency_source with
  | .raises => (none, [], [])
  | .noResponse => (none, [], [])
  | .responds first _rest =>
    match first with
    | .ok resolved_deps errors =>
      (some resolved_deps,
       errors.map fun e_type =>
         { type_ := e_type, dependency_source_file := rpcErrorPath dependency_source },
       rpcOkTargets dependency_source)
    | .err errors =>
      (none,
       errors.map fun e_type =>
         { type_ := e_type, dependency_source_file := rpcErrorPath dependency_source },
       [])

/-- The `use_nondynamic_ocaml_parsing` condition of `_handle_lockfile_source`. -/
def use_nondynamic_ocaml_parsing (dep_source : ChildSource) : Bool :=
  decide ((dep_source.manifestKind, some dep_source.lockfile.kind)
    ∈ PTT_OCAML_PARSER_SUBPROJECT_KINDS)

/-- The `use_dynamic_resolution` condition of `_handle_lockfile_source`. -/
def use_dynamic_resolution (enable_dynamic_resolution : Bool) (dep_source : ChildSource) : Bool :=
  enable_dynamic_resolution &&
    decide ((dep_source.manifestKind, some dep_source.lockfile.kind)
      ∈ PTT_DYNAMIC_RESOLUTION_SUBPROJECT_KINDS)

/-- The method tag attached to an engine result in `_handle_lockfile_source`:
`LOCKFILE_PARSING if use_nondynamic_ocaml_parsing else DYNAMIC`. -/
def pttMethodTag (dep_source : ChildSource) : ResolutionMethod :=
  if use_nondynamic_ocaml_parsing dep_source then .lockfileParsing else .dynamic

/-- `_handle_lockfile_source`.  The Python early `return` inside the PTT branch
is modelled by an intermediate `Option DependencyResolutionResult`: `some r`
means the engine produced a usable result `r` and the function returns it,
`none` means control falls through to the in-process parser. -/
def handle_lockfile_source (env : Env) (dep_source : ChildSource)
    (enable_dynamic_resolution ptt_enabled : Bool) : DependencyResolutionResult :=
  let lockfile_path := dep_source.lockfile.path
  let parserOpt := PARSERS_BY_LOCKFILE_KIND env dep_source.lockfile.kind
  let engineResult : Option DependencyResolutionResult :=
    if ptt_enabled then
      if use_nondynamic_ocaml_parsing dep_source
          || use_dynamic_resolution enable_dynamic_resolution dep_source then
        match resolve_dependencies_rpc env dep_source.toSingle with
        | (some new_deps, new_errors, new_targets) =>
          some ((some (pttMethodTag dep_source, new_deps)),
                new_errors.map .resolveErr, new_targets)
        | (none, _, _) => none
      else none
    else none
  match engineResult with
  | some r => r
  | none =>
    match parserOpt with
    | none => (none, [], [])
    | some p =>
      let manifest_path := dep_source.manifestPath
      let (resolved_deps, parse_errors) := p lockfile_path manifest_path
      ((some (.lockfileParsing, resolved_deps)),
       parse_errors.map .parseErr, [lockfile_path])

/-- `_handle_manifest_only_source`. -/
def handle_manifest_only_source (env : Env) (manifest : Manifest) :
    DependencyResolutionResult :=
  match resolve_dependencies_rpc env (.manifestOnly manifest) with
  | (none, new_errors, new_targets) => (none, new_errors.map .resolveErr, new_targets)
  | (some new_deps, new_errors, new_targets) =>
    ((some (.dynamic, new_deps)), new_errors.map .resolveErr, new_targets)

/-- Set-insertion into the `resolution_methods` set of
`_handle_multi_lockfile_source` (membership-and-length-only Python set,
modelled as a duplicate-free list). -/
def insertMethod (ms : List ResolutionMethod) (m : ResolutionMethod) : List ResolutionMethod :=
  if m ∈ ms then ms else ms ++ [m]

/-- Accumulator of the child loop in `_handle_multi_lockfile_source`. -/
structure MultiAcc where
  all_resolved_deps : List FoundDependency
  all_parse_errors : List DepError
  all_dep_targets : List Path
  resolution_methods : List ResolutionMethod

/-- One iteration of the child loop of `_handle_multi_lockfile_source`.  Each
child is a non-multi lockfile-bearing source, and `resolve_dependency_source`
on such a source is exactly `_handle_lockfile_source` (lemma
`resolve_child_eq_handle_lockfile` below), so the recursive call is inlined to
keep the definition structurally recursive. -/
def multiStep (env : Env) (acc : MultiAcc) (lockfile_source : ChildSource) : MultiAcc :=
  let (new_resolved_info, new_errors, new_targets) :=
    handle_lockfile_source env lockfile_source false false
  let acc' :=
    match new_resolved_info with
    | some (resolution_method, new_deps) =>
      { acc with
        resolution_methods := insertMethod acc.resolution_methods resolution_method,
        all_resolved_deps := acc.all_resolved_deps ++ new_deps }
    | none => acc
  { acc' with
    all_parse_errors := acc'.all_parse_errors ++ new_errors,
    all_dep_targets := acc'.all_dep_targets ++ new_targets }

/-- `_handle_multi_lockfile_source`.  Its `enable_dynamic_resolution` and
`ptt_enabled` parameters are accepted but never read: the recursive calls pass
explicit `False, False`. -/
def handle_multi_lockfile_source (env : Env) (sources : List ChildSource)
    (_enable_dynamic_resolution _ptt_enabled : Bool) : DependencyResolutionResult :=
  let acc := sources.foldl (multiStep env) ⟨[], [], [], []⟩
  let resolution_method :=
    if ResolutionMethod.dynamic ∈ acc.resolution_methods then ResolutionMethod.dynamic
    else ResolutionMethod.lockfileParsing
  ((some (resolution_method, acc.all_resolved_deps)),
   acc.all_parse_errors, acc.all_dep_targets)

/-- `resolve_dependency_source`: the dispatcher. -/
def resolve_dependency_source (env : Env) (dep_source : DependencySource)
    (enable_dynamic_resolution ptt_enabled : Bool) : DependencyResolutionResult :=
  match dep_source with
  | .lockfileOnly lf =>
    handle_lockfile_source env (.lockfileOnly lf) enable_dynamic_resolution ptt_enabled
  | .manifestLockfile m lf =>
    handle_lockfile_source env (.manifestLockfile m lf) enable_dynamic_resolution ptt_enabled
  | .multiLockfile srcs =>
    handle_multi_lockfile_source env srcs enable_dynamic_resolution ptt_enabled
  | .manifestOnly m =>
    if enable_dynamic_resolution
        && decide ((some m.kind, (none : Option LockfileKind))
            ∈ PTT_DYNAMIC_RESOLUTION_SUBPROJECT_KINDS) then
      handle_manifest_only_source env m
    else
      (none, [], [])

/-! ## Dependency graph (`semgrep.subproject.ResolvedDependencies`) -/

/-- The index of the dependency graph: a Python `dict` keyed by
`DependencyChild`, preserving key insertion order, holding the list of all
entries sharing the key in insertion order.  Modelled as an association list. -/
structure ResolvedDependencies where
  dependencies_by_package_version_pair : List (DependencyChild × List FoundDependency)
  deriving DecidableEq

/-- One step of the dict-building loop in `from_found_dependencies`: append
`dep` to the group of its (package, version) key, creating the key at the end
if absent. -/
def insertDep (mapping : List (DependencyChild × List FoundDependency))
    (dep : FoundDependency) : List (DependencyChild × List FoundDependency) :=
  let k : DependencyChild := ⟨dep.package, dep.version⟩
  match mapping with
  | [] => [(k, [dep])]
  | (k', g) :: rest =>
    if k' = k then (k', g ++ [dep]) :: rest
    else (k', g) :: insertDep rest dep

/-- `ResolvedDependencies.from_found_dependencies`. -/
def from_found_dependencies (found_deps : List FoundDependency) : ResolvedDependencies :=
  ⟨found_deps.foldl insertDep []⟩

/-- `iter_found_dependencies`: flatten the graph, groups in key-insertion
order, entries in insertion order within a group. -/
def ResolvedDependencies.iter_found_dependencies (rd : ResolvedDependencies) :
    List FoundDependency :=
  rd.dependencies_by_package_version_pair.flatMap fun g => g.2

/-- `ResolvedDependencies.count`: `sum(1 for _ in self.iter_found_dependencies())`. -/
def ResolvedDependencies.count (rd : ResolvedDependencies) : Nat :=
  rd.iter_found_dependencies.length

/-! ## Subproject model and stats output (`semgrep.subproject`) -/

/-- `semgrep.subproject.Subproject`. -/
structure Subproject where
  root_dir : Path
  dependency_source : DependencySource
  ecosystem : Option Ecosystem
  deriving DecidableEq

/-- The kind tag of a `out.DependencySourceFile`. -/
inductive SourceFileKind where
  | manifestK (k : ManifestKind)
  | lockfileK (k : LockfileKind)
  deriving DecidableEq

/-- `out.DependencySourceFile`. -/
structure DependencySourceFile where
  kind : SourceFileKind
  path : Path
  deriving DecidableEq

/-- `to_stats_output` of the two non-multi lockfile-bearing subclasses. -/
def ChildSource.to_stats_output : ChildSource → List DependencySourceFile
  | .lockfileOnly lf => [⟨.lockfileK lf.kind, lf.path⟩]
  | .manifestLockfile m lf => [⟨.lockfileK lf.kind, lf.path⟩, ⟨.manifestK m.kind, m.path⟩]

/-- `to_stats_output` of each `DependencySource` subclass. -/
def DependencySource.to_stats_output : DependencySource → List DependencySourceFile
  | .manifestOnly m => [⟨.manifestK m.kind, m.path⟩]
  | .lockfileOnly lf => [⟨.lockfileK lf.kind, lf.path⟩]
  | .manifestLockfile m lf => [⟨.lockfileK lf.kind, lf.path⟩, ⟨.manifestK m.kind, m.path⟩]
  | .multiLockfile srcs => srcs.flatMap ChildSource.to_stats_output

/-- `out.DependencyResolutionStats`. -/
structure DependencyResolutionStats where
  ecosystem : Ecosystem
  resolution_method : ResolutionMethod
  dependency_count : Nat
  deriving DecidableEq

/-- `out.SubprojectStats`. -/
structure SubprojectStats where
  subproject_id : String
  dependency_sources : List DependencySourceFile
  resolved_stats : Option DependencyResolutionStats
  deriving DecidableEq

/-- Python's `str(path)` for our component-list model of an absolute path. -/
def pathToString (p : Path) : String :=
  "/" ++ String.intercalate "/" p

/-- The normalized path list hashed by `Subproject.to_stats_output`:
`sorted(str(path).strip() for path in ...get_display_paths())`.  Python's
`sorted` on strings is modelled by the stable `List.insertionSort` under the
lexicographic order. -/
def normalizedPaths (ds : DependencySource) : List String :=
  List.insertionSort (· ≤ ·) (ds.get_display_paths.map fun p => (pathToString p).trim)

/-- `Subproject.to_stats_output`, parameterized by the external sha-256 hex
digest function `sha`:
`subproject_id = sha256("".join(normalized_paths)).hexdigest()`. -/
def Subproject.to_stats_output (sha : String → String) (sp : Subproject) : SubprojectStats :=
  { subproject_id := sha (String.join (normalizedPaths sp.dependency_source)),
    dependency_sources := sp.dependency_source.to_stats_output,
    resolved_stats := none }

/-! ## Closest-subproject matcher (`find_closest_subproject`) -/

/-- The parent chain `[path, *path.parents]` of the Python source: all prefixes
of the component list, longest first, ending with the root `[]`. -/
def ancestorChain (path : Path) : List Path :=
  (List.range (path.length + 1)).map fun i => path.take (path.length - i)

/-- `find_closest_subproject`: sort candidates by root-directory depth
descending (stable, like Python's `sorted` with `reverse=True`), then return
the first candidate some element of whose parent chain equals its root
directory, with matching ecosystem. -/
def find_closest_subproject (path : Path) (ecosystem : Ecosystem)
    (candidates : List Subproject) : Option Subproject :=
  let sorted_candidates :=
    List.insertionSort (fun a b => b.root_dir.length ≤ a.root_dir.length) candidates
  sorted_candidates.find? fun candidate =>
    (ancestorChain path).any (fun parent => candidate.root_dir == parent)
      && (candidate.ecosystem == some ecosystem)

/-! ## Orchestrator pieces (`semgrep.resolve_subprojects`) -/

/-- `semgrep.subproject.UnresolvedReason`. -/
inductive UnresolvedReason where
  | failed
  | skipped
  | unsupported
  deriving DecidableEq

/-- `semgrep.subproject.UnresolvedSubproject`. -/
structure UnresolvedSubproject where
  root_dir : Path
  dependency_source : DependencySource
  ecosystem : Option Ecosystem
  unresolved_reason : UnresolvedReason
  resolution_errors : List DepError
  deriving DecidableEq

/-- `UnresolvedSubproject.from_subproject`. -/
def UnresolvedSubproject.from_subproject (base : Subproject)
    (unresolved_reason : UnresolvedReason) (resolution_errors : List DepError) :
    UnresolvedSubproject :=
  { root_dir := base.root_dir,
    dependency_source := base.dependency_source,
    ecosystem := base.ecosystem,
    unresolved_reason := unresolved_reason,
    resolution_errors := resolution_errors }

/-- `semgrep.subproject.ResolvedSubproject`. -/
structure ResolvedSubproject where
  root_dir : Path
  dependency_source : DependencySource
  ecosystem : Ecosystem
  resolution_errors : List DepError
  resolution_method : ResolutionMethod
  found_dependencies : ResolvedDependencies
  deriving DecidableEq

/-- `ResolvedSubproject.from_unresolved`. -/
def ResolvedSubproject.from_unresolved (unresolved : Subproject)
    (resolution_method : ResolutionMethod) (resolution_errors : List DepError)
    (found_dependencies : List FoundDependency) (ecosystem : Ecosystem) :
    ResolvedSubproject :=
  { root_dir := unresolved.root_dir,
    dependency_source := unresolved.dependency_source,
    ecosystem := ecosystem,
    resolution_errors := resolution_errors,
    resolution_method := resolution_method,
    found_dependencies := from_found_dependencies found_dependencies }

/-- The body of the dispatch loop of `resolve_subprojects` for one relevant
subproject: an unsupported-ecosystem subproject is never dispatched; otherwise
a `none` resolved pair yields `FAILED`, a `some` pair a `ResolvedSubproject`.
Also returns the consumed dependency-target paths the loop accumulates. -/
def processSubproject (env : Env) (allow_dynamic_resolution ptt_enabled : Bool)
    (subproject : Subproject) : Sum ResolvedSubproject UnresolvedSubproject × List Path :=
  match subproject.ecosystem with
  | none => (.inr (UnresolvedSubproject.from_subproject subproject .unsupported []), [])
  | some eco =>
    let (resolved_info, errors, targets) :=
      resolve_dependency_source env subproject.dependency_source
        allow_dynamic_resolution ptt_enabled
    match resolved_info with
    | some (resolution_method, deps) =>
      (.inl (ResolvedSubproject.from_unresolved subproject resolution_method errors deps eco),
       targets)
    | none =>
      (.inr (UnresolvedSubproject.from_subproject subproject .failed errors), targets)

/-- Set-insertion into the `relevant_subprojects` Python set (membership- and
length-only use), modelled as a duplicate-free list. -/
def insertSubproject (s : List Subproject) (sp : Subproject) : List Subproject :=
  if sp ∈ s then s else s ++ [sp]

/-- A dependency-aware rule, restricted to the fields
`filter_changed_subprojects` reads: its languages and its ecosystems. -/
structure Rule where
  languages : List String
  ecosystems : List Ecosystem

/-- Building `ecosystems_by_language`: record a language key on first sight
(insertion order), then append each ecosystem not already present for it. -/
def addLanguageEcosystems (ebl : List (String × List Ecosystem)) (language : String)
    (ecosystems : List Ecosystem) : List (String × List Ecosystem) :=
  let ebl' := if ebl.any (fun e => e.1 = language) then ebl else ebl ++ [(language, [])]
  ebl'.map fun e =>
    if e.1 = language then
      (e.1, ecosystems.foldl (fun acc eco => if eco ∈ acc then acc else acc ++ [eco]) e.2)
    else e

/-- The `ecosystems_by_language` dict of `filter_changed_subprojects`. -/
def ecosystemsByLanguage (dependency_aware_rules : List Rule) :
    List (String × List Ecosystem) :=
  dependency_aware_rules.foldl
    (fun ebl rule =>
      rule.languages.foldl (fun ebl lang => addLanguageEcosystems ebl lang rule.ecosystems) ebl)
    []

/-- Step (a) of `filter_changed_subprojects`: subprojects one of whose own
dependency source files is among the changed dependency-source targets. -/
def directlyRelevant (changed_targets : List Path) (subprojects : List Subproject) :
    List Subproject :=
  subprojects.foldl
    (fun relevant sp =>
      if sp.dependency_source.get_all_source_files.any (fun f => f ∈ changed_targets) then
        insertSubproject relevant sp
      else relevant)
    []

/-- `filter_changed_subprojects`, instrumented: the third component counts the
calls made to `find_closest_subproject` (zero when the early return after step
(a) fires).  `changed_targets` stands for
`target_manager.get_all_dependency_source_files(ignore_baseline_handler=False)`
and `files_for_language` for
`target_manager.get_files_for_language(...).kept`, both external. -/
def filter_changed_subprojects (changed_targets : List Path)
    (dependency_aware_rules : List Rule) (files_for_language : String → List Path)
    (subprojects : List Subproject) :
    List Subproject × List UnresolvedSubproject × Nat :=
  let relevant_subprojects := directlyRelevant changed_targets subprojects
  if relevant_subprojects.length = subprojects.length then
    (subprojects.filter (fun s => s ∈ relevant_subprojects), [], 0)
  else
    let ebl := ecosystemsByLanguage dependency_aware_rules
    let stepC :=
      ebl.foldl
        (fun (st : List Subproject × Nat) le =>
          (files_for_language le.1).foldl
            (fun st code_file =>
              le.2.foldl
                (fun (st : List Subproject × Nat) eco =>
                  match find_closest_subproject code_file eco subprojects with
                  | some closest => (insertSubproject st.1 closest, st.2 + 1)
                  | none => (st.1, st.2 + 1))
                st)
            st)
        (relevant_subprojects, 0)
    let relevantFinal := stepC.1
    let ordered_relevant := subprojects.filter (fun s => s ∈ relevantFinal)
    let ordered_irrelevant := subprojects.filter (fun s => s ∉ relevantFinal)
    (ordered_relevant,
     ordered_irrelevant.map fun s => UnresolvedSubproject.from_subproject s .skipped [],
     stepC.2)

/-! ## Derived notions used in theorem statements -/

/-- How one multi-lockfile child is resolved: independently, with dynamic
resolution and PTT forced off. -/
def childResolved (env : Env) (c : ChildSource) : DependencyResolutionResult :=
  resolve_dependency_source env c.toDepSource false false

/-- The dependency list of a resolution result (empty when unresolved). -/
def resultDeps (r : DependencyResolutionResult) : List FoundDependency :=
  match r.1 with
  | some (_, ds) => ds
  | none => []

/-- Whether a resolution result carries the `DYNAMIC` method. -/
def resultIsDynamic (r : DependencyResolutionResult) : Bool :=
  match r.1 with
  | some (.dynamic, _) => true
  | _ => false

/-! ## Concrete values used by witnesses and counterexamples -/

/-- A sample resolved dependency. -/
def sampleDep : FoundDependency :=
  { package := "lodash", version := "4.17.21", transitivity := .direct,
    children := none, lockfile_path := none }

/-- A sample parser-level error. -/
def sampleParseError : DependencyParserError := ⟨"malformed entry"⟩

/-- A sample engine-level typed error. -/
def sampleRpcError : ResolutionErrorType := ⟨"engine unavailable"⟩

/-- An environment whose engine always raises and whose parsers succeed with
one dependency and one recoverable error. -/
def envStatic : Env :=
  { rpc := fun _ => .raises,
    parserFun := fun _ _ _ => ([sampleDep], [sampleParseError]) }

/-- An environment whose engine answers `Ok` with one dependency and one
non-fatal error. -/
def envRpcOk : Env :=
  { rpc := fun _ => .responds (.ok [sampleDep] [sampleRpcError]) [],
    parserFun := fun _ _ _ => ([], []) }

/-- An environment whose engine answers `Err` with one typed error. -/
def envRpcErr : Env :=
  { rpc := fun _ => .responds (.err [sampleRpcError]) [],
    parserFun := fun _ _ _ => ([], []) }

/-- An environment whose engine never responds and whose parsers succeed. -/
def envRpcNone : Env :=
  { rpc := fun _ => .noResponse,
    parserFun := fun _ _ _ => ([sampleDep], [sampleParseError]) }

/-- A poetry lockfile. -/
def poetryLf : Lockfile := ⟨["proj", "poetry.lock"], .poetryLock⟩

/-- A uv lockfile (kind recognized, no parser registered). -/
def uvLf : Lockfile := ⟨["proj", "uv.lock"], .uvLock⟩

/-- A pip requirements lockfile (PTT dynamic resolution applies even without a
manifest). -/
def reqLf : Lockfile := ⟨["proj", "requirements.txt"], .pipRequirementsTxt⟩

/-- An npm manifest. -/
def npmManifest : Manifest := ⟨["proj", "package.json"], .packageJson⟩

/-- An npm lockfile. -/
def npmLf : Lockfile := ⟨["proj", "package-lock.json"], .npmPackageLockJson⟩

/-- Subproject A of the spec's closest-subproject example: root `/p`. -/
def spA : Subproject := ⟨["p"], .lockfileOnly ⟨["p", "package-lock.json"], .npmPackageLockJson⟩, some .npm⟩

/-- Subproject B of the spec's closest-subproject example: root `/p/sub`. -/
def spB : Subproject :=
  ⟨["p", "sub"], .lockfileOnly ⟨["p", "sub", "package-lock.json"], .npmPackageLockJson⟩, some .npm⟩

/-- A pypi subproject at root `/p` whose lockfile is `/p/poetry.lock`. -/
def spDup : Subproject := ⟨["p"], .lockfileOnly ⟨["p", "poetry.lock"], .poetryLock⟩, some .pypi⟩

/-- A changed-file set containing `spDup`'s lockfile. -/
def ctC8 : List Path := [["p", "poetry.lock"]]

/-- A dependency-aware rule for python / pypi. -/
def ruleC8 : Rule := ⟨["python"], [.pypi]⟩

/-- A target manager view with one python code file. -/
def fflC8 : String → List Path := fun _ => [["p", "app.py"]]

/-- First multi-lockfile child used in the `subproject_id` permutation witness. -/
def csPerm1 : ChildSource := .lockfileOnly ⟨["a", "poetry.lock"], .poetryLock⟩

/-- Second multi-lockfile child used in the `subproject_id` permutation witness. -/
def csPerm2 : ChildSource :=
  .manifestLockfile ⟨["b", "package.json"], .packageJson⟩ ⟨["b", "package-lock.json"], .npmPackageLockJson⟩

/-- A multi-lockfile subproject with children in one order. -/
def spPerm1 : Subproject := ⟨[], .multiLockfile [csPerm1, csPerm2], some .npm⟩

/-- The same multi-lockfile subproject with children permuted. -/
def spPerm2 : Subproject := ⟨[], .multiLockfile [csPerm2, csPerm1], some .npm⟩

/-! ## Theorems -/

/-- Dispatching a non-multi lockfile-bearing source goes straight to
`_handle_lockfile_source`. -/
theorem resolve_child_eq_handle_lockfile (env : Env) (c : ChildSource) (d p : Bool) :
    resolve_dependency_source env c.toDepSource d p = handle_lockfile_source env c d p := by
  cases c <;> rfl

/-- C7: resolving a `LockfileOnly` source whose lockfile kind has a registered
in-process parser, with dynamic resolution and PTT both disabled, returns
method `LOCKFILE_PARSING`, exactly the parser's dependencies for
(lockfile path, no manifest path), the parser's errors, and the one-element
consumed-target list `[lockfile path]`. -/
theorem C7_lockfile_only_static_parsing (env : Env) (lf : Lockfile)
    (pf : Path → Option Path → List FoundDependency × List DependencyParserError)
    (h : PARSERS_BY_LOCKFILE_KIND env lf.kind = some pf) :
    resolve_dependency_source env (.lockfileOnly lf) false false
      = (some (.lockfileParsing, (pf lf.path none).1),
         (pf lf.path none).2.map .parseErr, [lf.path]) := by
  show handle_lockfile_source env (.lockfileOnly lf) false false = _
  unfold handle_lockfile_source
  simp only [Bool.false_eq_true, if_false, h, ChildSource.lockfile, ChildSource.manifestPath]

/-- Witness for C7 at a concrete poetry lockfile and concrete parser
environment. -/
theorem C7_witness :
    PARSERS_BY_LOCKFILE_KIND envStatic poetryLf.kind = some (envStatic.parserFun .poetryLock)
    ∧ resolve_dependency_source envStatic (.lockfileOnly poetryLf) false false
        = (some (.lockfileParsing, [sampleDep]), [.parseErr sampleParseError],
           [["proj", "poetry.lock"]]) :=
  ⟨rfl, C7_lockfile_only_static_parsing envStatic poetryLf (envStatic.parserFun .poetryLock) rfl⟩

/-- C3: a `LockfileOnly` or `ManifestLockfile` source whose lockfile kind has
no registered in-process parser, when no path-to-transitivity path applies,
resolves to `(none, [], [])`: no dependencies, no errors, no targets, no
exception. -/
theorem C3_unregistered_kind_silent (env : Env) (ds : ChildSource) (d p : Bool)
    (hparser : PARSERS_BY_LOCKFILE_KIND env ds.lockfile.kind = none)
    (hptt : ¬(p = true ∧ (use_nondynamic_ocaml_parsing ds
        || use_dynamic_resolution d ds) = true)) :
    resolve_dependency_source env ds.toDepSource d p = (none, [], []) := by
  rw [resolve_child_eq_handle_lockfile]
  unfold handle_lockfile_source
  cases p with
  | false => simp [hparser]
  | true =>
    have hcond : (use_nondynamic_ocaml_parsing ds || use_dynamic_resolution d ds) = false := by
      cases hc : (use_nondynamic_ocaml_parsing ds || use_dynamic_resolution d ds)
      · rfl
      · exact absurd ⟨rfl, hc⟩ hptt
    simp [hcond, hparser]

/-- Witness for C3 at a concrete uv lockfile (recognized, unsupported kind). -/
theorem C3_witness :
    PARSERS_BY_LOCKFILE_KIND envStatic uvLf.kind = none
    ∧ resolve_dependency_source envStatic (ChildSource.lockfileOnly uvLf).toDepSource false false
        = (none, [], []) :=
  ⟨rfl, C3_unregistered_kind_silent envStatic (.lockfileOnly uvLf) false false rfl (by decide)⟩

/-- C2 (amended): on an `Ok` engine result each non-fatal error is wrapped with
the lockfile path when the source is lockfile-only and with the manifest path
otherwise (in particular a manifest-plus-lockfile source uses the manifest
path), and the dependencies are returned alongside; on an `Err` result every
error is wrapped the same way and the dependency list is `none`. -/
theorem C2_rpc_error_wrapping (env : Env) (ss : SingleSource) :
    (∀ deps errs rest, env.rpc ss = .responds (.ok deps errs) rest →
      resolve_dependencies_rpc env ss
        = (some deps,
           errs.map fun t => ⟨t, rpcErrorPath ss⟩,
           rpcOkTargets ss))
    ∧ (∀ errs rest, env.rpc ss = .responds (.err errs) rest →
      resolve_dependencies_rpc env ss
        = (none, errs.map fun t => ⟨t, rpcErrorPath ss⟩, [])) := by
  constructor
  · intro deps errs rest h
    unfold resolve_dependencies_rpc
    rw [h]
  · intro errs rest h
    unfold resolve_dependencies_rpc
    rw [h]

/-- Witness for C2 at a concrete manifest-plus-lockfile source, one `Ok` run
and one `Err` run. -/
theorem C2_witness :
    envRpcOk.rpc (.manifestLockfile npmManifest npmLf)
        = .responds (.ok [sampleDep] [sampleRpcError]) []
    ∧ resolve_dependencies_rpc envRpcOk (.manifestLockfile npmManifest npmLf)
        = (some [sampleDep], [⟨sampleRpcError, npmManifest.path⟩], [npmLf.path])
    ∧ resolve_dependencies_rpc envRpcErr (.manifestLockfile npmManifest npmLf)
        = (none, [⟨sampleRpcError, npmManifest.path⟩], []) :=
  ⟨rfl,
   (C2_rpc_error_wrapping envRpcOk (.manifestLockfile npmManifest npmLf)).1
     [sampleDep] [sampleRpcError] [] rfl,
   (C2_rpc_error_wrapping envRpcErr (.manifestLockfile npmManifest npmLf)).2
     [sampleRpcError] [] rfl⟩

/-- Counterexample to C2 as stated: a `ManifestLockfile` source has a lockfile,
yet its engine errors are wrapped with the manifest path, which differs from
the lockfile path. -/
theorem C2_counterexample :
    (resolve_dependencies_rpc envRpcOk (.manifestLockfile npmManifest npmLf)).2.1
      = [⟨sampleRpcError, ["proj", "package.json"]⟩]
    ∧ npmManifest.path ≠ npmLf.path := by
  constructor
  · rfl
  · decide

/-- The flattened length of the graph index grows by exactly one under
`insertDep`. -/
theorem insertDep_flat_length (m : List (DependencyChild × List FoundDependency))
    (d : FoundDependency) :
    ((insertDep m d).flatMap fun g => g.2).length = ((m.flatMap fun g => g.2).length) + 1 := by
  induction m with
  | nil => simp [insertDep]
  | cons hd tl ih =>
    unfold insertDep
    by_cases hk : hd.1 = (⟨d.package, d.version⟩ : DependencyChild)
    · simp [hk]
      omega
    · simp [hk, ih]
      omega

/-- The flattened length of the fold over `insertDep`. -/
theorem foldl_insertDep_flat_length (l : List FoundDependency)
    (m : List (DependencyChild × List FoundDependency)) :
    ((l.foldl insertDep m).flatMap fun g => g.2).length
      = ((m.flatMap fun g => g.2).length) + l.length := by
  induction l generalizing m with
  | nil => simp
  | cons d rest ih =>
    simp only [List.foldl_cons, ih, insertDep_flat_length, List.length_cons]
    omega

/-- C1: for a lockfile-bearing source that qualifies for delegated static
parsing or allowed dynamic resolution when PTT is enabled, the engine call is
attempted first.  A non-empty engine dependency list is returned with the
appropriate method tag (`LOCKFILE_PARSING` for delegated static parsing, else
`DYNAMIC`) and resolution stops; an engine call that yields nothing falls back
to the registered in-process parser keyed by the lockfile kind. -/
theorem C1_ptt_engine_first_then_fallback (env : Env) (ds : ChildSource) (d : Bool)
    (hq : (use_nondynamic_ocaml_parsing ds || use_dynamic_resolution d ds) = true) :
    (∀ deps errs tgts,
      resolve_dependencies_rpc env ds.toSingle = (some deps, errs, tgts) → deps ≠ [] →
      resolve_dependency_source env ds.toDepSource d true
        = (some (pttMethodTag ds, deps), errs.map .resolveErr, tgts))
    ∧ (∀ pf, (resolve_dependencies_rpc env ds.toSingle).1 = none →
      PARSERS_BY_LOCKFILE_KIND env ds.lockfile.kind = some pf →
      resolve_dependency_source env ds.toDepSource d true
        = (some (.lockfileParsing, (pf ds.lockfile.path ds.manifestPath).1),
           (pf ds.lockfile.path ds.manifestPath).2.map .parseErr,
           [ds.lockfile.path])) := by
  constructor
  · intro deps errs tgts hrpc _hne
    rw [resolve_child_eq_handle_lockfile]
    unfold handle_lockfile_source
    simp [hq, hrpc]
  · intro pf hrpc hpf
    rw [resolve_child_eq_handle_lockfile]
    unfold handle_lockfile_source
    rcases h : resolve_dependencies_rpc env ds.toSingle with ⟨dopt, errs, tgts⟩
    rw [h] at hrpc
    simp only at hrpc
    subst hrpc
    simp [hq, h, hpf]

/-- Witness for C1: a requirements.txt lockfile-only source qualifies for
dynamic resolution under PTT; with an engine that answers a non-empty list the
engine result is used, and with an engine that never answers the in-process
parser result is used. -/
theorem C1_witness :
    (use_nondynamic_ocaml_parsing (.lockfileOnly reqLf)
        || use_dynamic_resolution true (.lockfileOnly reqLf)) = true
    ∧ resolve_dependencies_rpc envRpcOk (ChildSource.lockfileOnly reqLf).toSingle
        = (some [sampleDep], [⟨sampleRpcError, reqLf.path⟩], [reqLf.path])
    ∧ resolve_dependency_source envRpcOk (ChildSource.lockfileOnly reqLf).toDepSource true true
        = (some (pttMethodTag (.lockfileOnly reqLf), [sampleDep]),
           [.resolveErr ⟨sampleRpcError, reqLf.path⟩], [reqLf.path])
    ∧ (resolve_dependencies_rpc envRpcNone (ChildSource.lockfileOnly reqLf).toSingle).1 = none
    ∧ resolve_dependency_source envRpcNone (ChildSource.lockfileOnly reqLf).toDepSource true true
        = (some (.lockfileParsing, [sampleDep]), [.parseErr sampleParseError], [reqLf.path]) :=
  ⟨by decide, rfl,
   (C1_ptt_engine_first_then_fallback envRpcOk (.lockfileOnly reqLf) true (by decide)).1
     [sampleDep] [⟨sampleRpcError, reqLf.path⟩] [reqLf.path] rfl (by simp),
   rfl,
   (C1_ptt_engine_first_then_fallback envRpcNone (.lockfileOnly reqLf) true (by decide)).2
     (envRpcNone.parserFun .pipRequirementsTxt) rfl rfl⟩

/-- Membership in the set-insertion of a resolution method. -/
theorem mem_insertMethod (ms : List ResolutionMethod) (m m' : ResolutionMethod) :
    m ∈ insertMethod ms m' ↔ m ∈ ms ∨ m = m' := by
  unfold insertMethod
  by_cases hmem : m' ∈ ms
  · simp only [hmem, if_true]
    constructor
    · exact Or.inl
    · rintro (hm | rfl)
      · exact hm
      · exact hmem
  · simp [hmem]

/-- Dependency accumulation of the multi-lockfile child fold. -/
theorem foldl_multiStep_deps (env : Env) (srcs : List ChildSource) (acc : MultiAcc) :
    (srcs.foldl (multiStep env) acc).all_resolved_deps
      = acc.all_resolved_deps
          ++ srcs.flatMap fun c => resultDeps (handle_lockfile_source env c false false) := by
  induction srcs generalizing acc with
  | nil => simp
  | cons c rest ih =>
    rcases hc : handle_lockfile_source env c false false with ⟨info, errs, tgts⟩
    cases info with
    | none =>
      simp only [List.foldl_cons, List.flatMap_cons, ih, multiStep, hc, resultDeps]
      simp
    | some md =>
      obtain ⟨m, deps⟩ := md
      simp only [List.foldl_cons, List.flatMap_cons, ih, multiStep, hc, resultDeps]
      simp

/-- Error accumulation of the multi-lockfile child fold. -/
theorem foldl_multiStep_errors (env : Env) (srcs : List ChildSource) (acc : MultiAcc) :
    (srcs.foldl (multiStep env) acc).all_parse_errors
      = acc.all_parse_errors
          ++ srcs.flatMap fun c => (handle_lockfile_source env c false false).2.1 := by
  induction srcs generalizing acc with
  | nil => simp
  | cons c rest ih =>
    rcases hc : handle_lockfile_source env c false false with ⟨info, errs, tgts⟩
    cases info with
    | none =>
      simp only [List.foldl_cons, List.flatMap_cons, ih, multiStep, hc]
      simp
    | some md =>
      obtain ⟨m, deps⟩ := md
      simp only [List.foldl_cons, List.flatMap_cons, ih, multiStep, hc]
      simp

/-- Target accumulation of the multi-lockfile child fold. -/
theorem foldl_multiStep_targets (env : Env) (srcs : List ChildSource) (acc : MultiAcc) :
    (srcs.foldl (multiStep env) acc).all_dep_targets
      = acc.all_dep_targets
          ++ srcs.flatMap fun c => (handle_lockfile_source env c false false).2.2 := by
  induction srcs generalizing acc with
  | nil => simp
  | cons c rest ih =>
    rcases hc : handle_lockfile_source env c false false with ⟨info, errs, tgts⟩
    cases info with
    | none =>
      simp only [List.foldl_cons, List.flatMap_cons, ih, multiStep, hc]
      simp
    | some md =>
      obtain ⟨m, deps⟩ := md
      simp only [List.foldl_cons, List.flatMap_cons, ih, multiStep, hc]
      simp

/-- The `DYNAMIC` method is recorded by the multi-lockfile child fold exactly
when some child resolved dynamically. -/
theorem foldl_multiStep_dyn (env : Env) (srcs : List ChildSource) (acc : MultiAcc) :
    ResolutionMethod.dynamic ∈ (srcs.foldl (multiStep env) acc).resolution_methods
      ↔ (ResolutionMethod.dynamic ∈ acc.resolution_methods
          ∨ (srcs.any fun c => resultIsDynamic (handle_lockfile_source env c false false)) = true) := by
  induction srcs generalizing acc with
  | nil => simp
  | cons c rest ih =>
    rcases hc : handle_lockfile_source env c false false with ⟨info, errs, tgts⟩
    cases info with
    | none =>
      simp only [List.foldl_cons, List.any_cons, ih, multiStep, hc, resultIsDynamic]
      simp
    | some md =>
      obtain ⟨m, deps⟩ := md
      simp only [List.foldl_cons, List.any_cons, ih, multiStep, hc, resultIsDynamic]
      rw [mem_insertMethod]
      cases m <;> simp

/-- The multi-lockfile handler always produces a resolved (method, deps) pair. -/
theorem multi_resolved_isSome (env : Env) (srcs : List ChildSource) (d p : Bool) :
    (resolve_dependency_source env (.multiLockfile srcs) d p).1.isSome = true := by
  show (handle_multi_lockfile_source env srcs d p).1.isSome = true
  unfold handle_multi_lockfile_source
  rfl

/-- C4: a `MultiLockfile` source resolves each child independently with dynamic
resolution and PTT forced off; dependencies, errors and consumed paths are the
child-order concatenations; the parent method is `DYNAMIC` exactly when some
child resolved dynamically, else `LOCKFILE_PARSING`; the target count is the
sum of the children's target counts. -/
theorem C4_multi_lockfile_aggregation (env : Env) (srcs : List ChildSource) (d p : Bool) :
    resolve_dependency_source env (.multiLockfile srcs) d p
      = (some
          ((if (srcs.any fun c => resultIsDynamic (childResolved env c)) = true
            then ResolutionMethod.dynamic else ResolutionMethod.lockfileParsing),
           srcs.flatMap fun c => resultDeps (childResolved env c)),
         srcs.flatMap fun c => (childResolved env c).2.1,
         srcs.flatMap fun c => (childResolved env c).2.2)
    ∧ (srcs.flatMap fun c => (childResolved env c).2.2).length
        = (srcs.map fun c => ((childResolved env c).2.2).length).sum := by
  have hchild : ∀ c, childResolved env c = handle_lockfile_source env c false false :=
    fun c => resolve_child_eq_handle_lockfile env c false false
  constructor
  · show handle_multi_lockfile_source env srcs d p = _
    unfold handle_multi_lockfile_source
    have hd := foldl_multiStep_deps env srcs ⟨[], [], [], []⟩
    have he := foldl_multiStep_errors env srcs ⟨[], [], [], []⟩
    have ht := foldl_multiStep_targets env srcs ⟨[], [], [], []⟩
    have hm := foldl_multiStep_dyn env srcs ⟨[], [], [], []⟩
    simp only [List.nil_append] at hd he ht
    simp only [List.not_mem_nil, false_or] at hm
    simp only [hchild, hd, he, ht]
    have hif :
        (if ResolutionMethod.dynamic ∈
            (srcs.foldl (multiStep env) ⟨[], [], [], []⟩).resolution_methods
          then ResolutionMethod.dynamic else ResolutionMethod.lockfileParsing)
          = (if (srcs.any fun c => resultIsDynamic (handle_lockfile_source env c false false)) = true
             then ResolutionMethod.dynamic else ResolutionMethod.lockfileParsing) :=
      if_congr hm rfl rfl
    rw [hif]
  · simp only [hchild, List.length_flatMap]
    congr 1

/-- C10: resolving a `MultiLockfile` source always yields a non-`none`
(method, deps) pair — when every child yields nothing the pair is
`(LOCKFILE_PARSING, [])` — and the orchestrator's dispatch step therefore never
marks a multi-lockfile subproject as `FAILED`. -/
theorem C10_multi_never_failed (env : Env) (srcs : List ChildSource) (d p : Bool) :
    (resolve_dependency_source env (.multiLockfile srcs) d p).1.isSome = true
    ∧ ((∀ c ∈ srcs, (childResolved env c).1 = none) →
        (resolve_dependency_source env (.multiLockfile srcs) d p).1
          = some (.lockfileParsing, []))
    ∧ (∀ sp : Subproject, sp.dependency_source = .multiLockfile srcs →
        sp.ecosystem.isSome = true →
        (processSubproject env d p sp).1.isLeft = true) := by
  have hchild : ∀ c, childResolved env c = handle_lockfile_source env c false false :=
    fun c => resolve_child_eq_handle_lockfile env c false false
  refine ⟨multi_resolved_isSome env srcs d p, ?_, ?_⟩
  · intro hall
    show (handle_multi_lockfile_source env srcs d p).1 = _
    unfold handle_multi_lockfile_source
    have hd := foldl_multiStep_deps env srcs ⟨[], [], [], []⟩
    have hm := foldl_multiStep_dyn env srcs ⟨[], [], [], []⟩
    simp only [List.nil_append] at hd
    simp only [List.not_mem_nil, false_or] at hm
    have hdeps : (srcs.flatMap fun c => resultDeps (handle_lockfile_source env c false false)) = [] := by
      rw [List.flatMap_eq_nil_iff]
      intro c hcmem
      have := hall c hcmem
      rw [hchild c] at this
      unfold resultDeps
      rw [this]
    have hnodyn : (srcs.any fun c => resultIsDynamic (handle_lockfile_source env c false false)) = false := by
      rw [List.any_eq_false]
      intro c hcmem
      have := hall c hcmem
      rw [hchild c] at this
      unfold resultIsDynamic
      rw [this]
      simp
    have hnotmem : ResolutionMethod.dynamic ∉
        (srcs.foldl (multiStep env) ⟨[], [], [], []⟩).resolution_methods := by
      rw [hm, hnodyn]
      simp
    simp only [hnotmem, if_false, hd, hdeps]
  · intro sp hds heco
    obtain ⟨eco, he⟩ := Option.isSome_iff_exists.mp heco
    unfold processSubproject
    rw [he]
    rcases hr : resolve_dependency_source env sp.dependency_source d p with ⟨info, errs, tgts⟩
    have hsome : info.isSome = true := by
      rw [hds] at hr
      have h1 := multi_resolved_isSome env srcs d p
      rw [hr] at h1
      exact h1
    obtain ⟨mi, hmi⟩ := Option.isSome_iff_exists.mp hsome
    subst hmi
    obtain ⟨meth, deps⟩ := mi
    simp [hr]

/-- A multi-lockfile subproject whose only child has an unsupported lockfile
kind, used as the C10 witness input. -/
def spMulti : Subproject := ⟨["proj"], .multiLockfile [.lockfileOnly uvLf], some .pypi⟩

/-- Witness for C10 at a concrete multi-lockfile subproject whose single child
resolves to nothing. -/
theorem C10_witness :
    (∀ c ∈ [ChildSource.lockfileOnly uvLf], (childResolved envStatic c).1 = none)
    ∧ (resolve_dependency_source envStatic (.multiLockfile [.lockfileOnly uvLf]) false false).1
        = some (.lockfileParsing, [])
    ∧ spMulti.dependency_source = .multiLockfile [.lockfileOnly uvLf]
    ∧ spMulti.ecosystem.isSome = true
    ∧ (processSubproject envStatic false false spMulti).1.isLeft = true :=
  ⟨by decide,
   (C10_multi_never_failed envStatic [.lockfileOnly uvLf] false false).2.1 (by decide),
   rfl, rfl,
   (C10_multi_never_failed envStatic [.lockfileOnly uvLf] false false).2.2 spMulti rfl rfl⟩

/-- C9: the graph built by `from_found_dependencies` counts exactly as many
entries as were passed in, duplicates included. -/
theorem C9_graph_count (found_deps : List FoundDependency) :
    (from_found_dependencies found_deps).count = found_deps.length := by
  unfold from_found_dependencies ResolvedDependencies.count
    ResolvedDependencies.iter_found_dependencies
  simpa using foldl_insertDep_flat_length found_deps []

/-- Sorting strings with a stable sort under the lexicographic order maps
permuted inputs to the same list. -/
theorem insertionSort_eq_of_perm {l₁ l₂ : List String} (h : List.Perm l₁ l₂) :
    List.insertionSort (fun a b => a ≤ b) l₁ = List.insertionSort (fun a b => a ≤ b) l₂ :=
  List.eq_of_perm_of_sorted
    ((List.perm_insertionSort _ _).trans (h.trans (List.perm_insertionSort _ _).symm))
    (List.sorted_insertionSort _ _) (List.sorted_insertionSort _ _)

/-- C6: the reported `subproject_id` — the digest of the concatenation of the
trimmed, lexicographically sorted display paths — is identical for any two
subprojects whose dependency sources yield the same multiset of display paths;
in particular it is invariant under permutation of a `MultiLockfile`'s
children, and recomputation is deterministic. -/
theorem C6_subproject_id_permutation_invariant (sha : String → String)
    (sp₁ sp₂ : Subproject)
    (h : List.Perm sp₁.dependency_source.get_display_paths
      sp₂.dependency_source.get_display_paths) :
    (sp₁.to_stats_output sha).subproject_id = (sp₂.to_stats_output sha).subproject_id := by
  unfold Subproject.to_stats_output
  simp only
  congr 1
  unfold normalizedPaths
  exact congrArg String.join (insertionSort_eq_of_perm (h.map _))

/-- Witness for C6: a two-child `MultiLockfile` subproject and its child-order
permutation produce equal display-path multisets and equal subproject ids. -/
theorem C6_witness :
    List.Perm spPerm1.dependency_source.get_display_paths
      spPerm2.dependency_source.get_display_paths
    ∧ (spPerm1.to_stats_output (fun s => s)).subproject_id
        = (spPerm2.to_stats_output (fun s => s)).subproject_id :=
  ⟨by decide,
   C6_subproject_id_permutation_invariant (fun s => s) spPerm1 spPerm2 (by decide)⟩

/-- Membership in the parent chain is exactly the prefix relation on component
lists. -/
theorem mem_ancestorChain {q p : Path} : q ∈ ancestorChain p ↔ q <+: p := by
  unfold ancestorChain
  simp only [List.mem_map, List.mem_range]
  constructor
  · rintro ⟨i, hi, rfl⟩
    exact List.take_prefix _ _
  · intro h
    refine ⟨p.length - q.length, ?_, ?_⟩
    · have := h.length_le
      omega
    · have hlen : q.length ≤ p.length := h.length_le
      have harith : p.length - (p.length - q.length) = q.length := by omega
      rw [harith]
      have htake := List.prefix_iff_eq_take.mp h
      exact htake.symm

/-- The candidate test of `find_closest_subproject` — some element of the
parent chain equals the root, with matching ecosystem — is the prefix test. -/
theorem closest_pred_eq (path : Path) (eco : Ecosystem) (c : Subproject) :
    (((ancestorChain path).any fun parent => c.root_dir == parent)
      && (c.ecosystem == some eco))
    = (decide (c.root_dir <+: path) && (c.ecosystem == some eco)) := by
  congr 1
  apply Bool.eq_iff_iff.mpr
  simp only [List.any_eq_true, beq_iff_eq, decide_eq_true_eq]
  constructor
  · rintro ⟨x, hx, rfl⟩
    exact mem_ancestorChain.mp hx
  · intro h
    exact ⟨c.root_dir, mem_ancestorChain.mpr h, rfl⟩

/-- C5: `find_closest_subproject` returns the first candidate, in
root-directory-depth-descending order, whose root directory is the path itself
or an ancestor of it and whose ecosystem matches; it returns `none` exactly
when no candidate qualifies; and for candidates A (root `/p`) and B (root
`/p/sub`) of the same ecosystem the match for `/p/sub/x` is B in either input
order, while an ecosystem mismatch on the only covering candidate yields
`none`. -/
theorem C5_find_closest_subproject_spec (path : Path) (eco : Ecosystem)
    (candidates : List Subproject) :
    find_closest_subproject path eco candidates
      = (List.insertionSort (fun a b => b.root_dir.length ≤ a.root_dir.length)
          candidates).find?
          (fun c => decide (c.root_dir <+: path) && (c.ecosystem == some eco))
    ∧ (find_closest_subproject path eco candidates = none
        ↔ ∀ c ∈ candidates, ¬(c.root_dir <+: path ∧ c.ecosystem = some eco))
    ∧ find_closest_subproject ["p", "sub", "x"] .npm [spA, spB] = some spB
    ∧ find_closest_subproject ["p", "sub", "x"] .npm [spB, spA] = some spB
    ∧ find_closest_subproject ["p", "y"] .pypi [spA] = none := by
  have hpred : (fun (c : Subproject) =>
      ((ancestorChain path).any fun parent => c.root_dir == parent)
        && (c.ecosystem == some eco))
      = fun c => decide (c.root_dir <+: path) && (c.ecosystem == some eco) :=
    funext (closest_pred_eq path eco)
  have heq : find_closest_subproject path eco candidates
      = (List.insertionSort (fun a b => b.root_dir.length ≤ a.root_dir.length)
          candidates).find?
          (fun c => decide (c.root_dir <+: path) && (c.ecosystem == some eco)) := by
    unfold find_closest_subproject
    rw [hpred]
  refine ⟨heq, ?_, by decide, by decide, by decide⟩
  rw [heq, List.find?_eq_none]
  constructor
  · intro hnone c hc
    have := hnone c ((List.mem_insertionSort _).mpr hc)
    simpa using this
  · intro hall c hc
    have := hall c ((List.mem_insertionSort _).mp hc)
    simpa using this

/-- The step-(a) fold marks every subproject when each one's source files meet
the changed set, and appends them in presentation order when no duplicates
collapse in the set. -/
theorem foldl_directlyRelevant_all (ct : List Path) (sps : List Subproject)
    (acc : List Subproject)
    (hall : ∀ sp ∈ sps,
      (sp.dependency_source.get_all_source_files.any fun f => f ∈ ct) = true)
    (hdisj : ∀ sp ∈ sps, sp ∉ acc) (hnd : sps.Nodup) :
    sps.foldl
      (fun relevant sp =>
        if sp.dependency_source.get_all_source_files.any (fun f => f ∈ ct) then
          insertSubproject relevant sp
        else relevant)
      acc = acc ++ sps := by
  induction sps generalizing acc with
  | nil => simp
  | cons sp rest ih =>
    have hsp : (sp.dependency_source.get_all_source_files.any fun f => f ∈ ct) = true :=
      hall sp (List.mem_cons_self sp rest)
    have hnotin : sp ∉ acc := hdisj sp (List.mem_cons_self sp rest)
    have hstep : insertSubproject acc sp = acc ++ [sp] := by
      unfold insertSubproject
      rw [if_neg hnotin]
    simp only [List.foldl_cons, hsp, if_true, hstep]
    rw [ih (acc ++ [sp])]
    · simp
    · intro x hx
      exact hall x (List.mem_cons_of_mem sp hx)
    · intro x hx
      rw [List.mem_append]
      rintro (hxa | hxs)
      · exact hdisj x (List.mem_cons_of_mem sp hx) hxa
      · rw [List.mem_singleton] at hxs
        subst hxs
        exact (List.nodup_cons.mp hnd).1 hx
    · exact (List.nodup_cons.mp hnd).2

/-- Step (a) of `filter_changed_subprojects` returns the full duplicate-free
subproject list when every subproject's own files intersect the changed set. -/
theorem directlyRelevant_all (ct : List Path) (sps : List Subproject)
    (hall : ∀ sp ∈ sps,
      (sp.dependency_source.get_all_source_files.any fun f => f ∈ ct) = true)
    (hnd : sps.Nodup) :
    directlyRelevant ct sps = sps := by
  unfold directlyRelevant
  simpa using foldl_directlyRelevant_all ct sps [] hall (by simp) hnd

/-- C8 (amended): when every subproject's own dependency source files intersect
the changed-file set and the subprojects are pairwise distinct,
`filter_changed_subprojects` returns the full subproject list in original
order, an empty irrelevant list, and performs no closest-subproject
computation (instrumented call count 0).  (With duplicate subprojects in the
list the early exit is defeated and closest-subproject calls may occur: see the
counterexample.) -/
theorem C8_all_relevant_early_exit (ct : List Path) (rules : List Rule)
    (ffl : String → List Path) (sps : List Subproject) (hnd : sps.Nodup)
    (hall : ∀ sp ∈ sps,
      (sp.dependency_source.get_all_source_files.any fun f => f ∈ ct) = true) :
    filter_changed_subprojects ct rules ffl sps = (sps, [], 0) := by
  unfold filter_changed_subprojects
  have hfilter : sps.filter (fun s => s ∈ sps) = sps := by
    rw [List.filter_eq_self]
    intro a ha
    simpa using ha
  rw [directlyRelevant_all ct sps hall hnd, if_pos rfl, hfilter]

/-- Witness for C8 at a concrete single-subproject input whose lockfile is in
the changed set. -/
theorem C8_witness :
    [spDup].Nodup
    ∧ (∀ sp ∈ [spDup],
        (sp.dependency_source.get_all_source_files.any fun f => f ∈ ctC8) = true)
    ∧ filter_changed_subprojects ctC8 [ruleC8] fflC8 [spDup] = ([spDup], [], 0) :=
  ⟨by decide, by decide,
   C8_all_relevant_early_exit ctC8 [ruleC8] fflC8 [spDup] (by decide) (by decide)⟩

/-- Counterexample to C8 as stated: with a duplicated subproject whose files
all intersect the changed set, the early exit is defeated (the relevant set
collapses the duplicates) and one closest-subproject computation is performed,
although the returned partition is unchanged. -/
theorem C8_counterexample :
    (∀ sp ∈ [spDup, spDup],
      (sp.dependency_source.get_all_source_files.any fun f => f ∈ ctC8) = true)
    ∧ filter_changed_subprojects ctC8 [ruleC8] fflC8 [spDup, spDup]
        = ([spDup, spDup], [], 1) := by
  constructor
  · decide
  · decide

end Semgrep
